import Mathlib

/-!
Verification of the hachoir TrueType font decoder
(`hachoir-parser/hachoir_parser/misc/ttf.py`) and of the fragment-reassembly
mechanism (`hachoir/field/fragment.py`), as a shallow embedding.

Modelling conventions:

* Bytes are naturals; the scalar decode helpers mask with `% 256` where a byte
  enters a value.  Streams are byte lists.
* A hachoir generator-style `createFields` routine is embedded as a function
  producing the list of emitted fields (as events); a fatal `ParserError`
  raised mid-production is an `Option String` / `Except String` error paired
  with the fields already emitted before the raise.
* `seekByte` lives in `hachoir_core` (not part of the sources under
  verification).  Modelled from the spec: a forward seek emits one padding
  field spanning the gap, a seek to the current position emits nothing, and a
  backward target fails.
* `self.error(...)` (the recoverable-anomaly sink, also `hachoir_core`) is
  modelled from the spec as an emitted anomaly event: logged, non-fatal,
  production continues.
* Field lookup (`self["name"]`) on the root parser is modelled from the spec:
  it forces production of the preceding fields and propagates a fatal bounds
  error when the stream is too short to decode the field.
-/

namespace Hachoir

/-! ## TrueType directory records (`TableHeader`, ttf.py lines 58-66) -/

/-- Decoded values of the four fields produced by `TableHeader.createFields`:
a 4-character tag, a checksum, the declared byte offset and the declared byte
size of the table. -/
structure TableHdr where
  tag : String
  checksum : Nat
  offset : Nat
  size : Nat
deriving DecidableEq, Repr

/-- MIN_NB_TABLE constant (ttf.py line 16). -/
def MIN_NB_TABLE : Nat := 3

/-- MAX_NB_TABLE constant (ttf.py line 17). -/
def MAX_NB_TABLE : Nat := 30

/-! ## Root parser `validate` (ttf.py lines 221-228) -/

/-- Big-endian 16-bit read at byte offset `off`, `none` past the stream end.
Scalar decoding is a primitive (spec section 1); the bounds behaviour is the
spec's "decoding beyond stream bounds fails with a bounds error". -/
def readUInt16BE (s : List Nat) (off : Nat) : Option Nat :=
  match s[off]?, s[off + 1]? with
  | some hi, some lo => some ((hi % 256) * 256 + lo % 256)
  | _, _ => none

/-- Outcome of a call to the root parser's `validate`: normal success, normal
failure carrying the diagnostic string, or a propagated fatal error raised by
a field lookup that could not decode its field (modelled from the spec, see
the module header). -/
inductive ValidateResult where
  | ok
  | invalid (msg : String)
  | raised
deriving DecidableEq, Repr

/-- True when `validate` returned (either success or a diagnostic string)
rather than propagating an exception. -/
def ValidateResult.returnsNormally : ValidateResult → Bool
  | .raised => false
  | _ => true

/-- `TrueTypeFontFile.validate` (ttf.py lines 221-228).  The three header
fields it inspects are `maj_ver` (bytes 0-1), `min_ver` (bytes 2-3) and
`nb_table` (bytes 4-5), the first three fields of `createFields`; each lookup
forces lazy production of that field and propagates a fatal error if the
stream ends before it. -/
def TrueTypeFontFile.validate (s : List Nat) : ValidateResult :=
  match readUInt16BE s 0 with
  | none => .raised
  | some maj =>
    if maj ≠ 1 then .invalid ("Invalid major version (" ++ toString maj ++ ")")
    else
      match readUInt16BE s 2 with
      | none => .raised
      | some minv =>
        if minv ≠ 0 then .invalid ("Invalid minor version (" ++ toString minv ++ ")")
        else
          match readUInt16BE s 4 with
          | none => .raised
          | some nb =>
            if ¬(MIN_NB_TABLE ≤ nb ∧ nb ≤ MAX_NB_TABLE) then
              .invalid ("Invalid number of table (" ++ toString nb ++ ")")
            else .ok

/-! ## Root parser table emission (`TrueTypeFontFile.createFields`,
ttf.py lines 237-252) -/

/-- Field emitted by the root parser after the directory: either a padding
field covering a seek gap, or one `Table` field for a directory record,
carrying the bit size it was bound to (`size=size*8` at ttf.py line 249). -/
inductive TtfEvt where
  | padding (n : Nat)
  | table (hdr : TableHdr) (bits : Nat)
deriving DecidableEq, Repr

/-- Emission loop of `TrueTypeFontFile.createFields` over the offset-sorted
directory records (ttf.py lines 243-249).  The cursor is in bytes.
`seekByte(offset, null=True)` is modelled from the spec (forward gap emits one
padding field, backward target fails, hence `Option`).  A record of nonzero
size emits one `Table` field bound to `size * 8` bits, advancing the cursor by
`size` bytes; a record of size 0 emits nothing after the seek. -/
def emitTables (cursor : Nat) : List TableHdr → Option (List TtfEvt)
  | [] => some []
  | t :: rest =>
    if t.offset < cursor then none
    else
      (emitTables (t.offset + t.size) rest).map fun evs =>
        (if cursor < t.offset then [TtfEvt.padding (t.offset - cursor)] else []) ++
        (if t.size ≠ 0 then [TtfEvt.table t (t.size * 8)] else []) ++ evs

/-- The sort `tables.sort(key=lambda field: field["offset"].value)` at
ttf.py line 242.  Python's list sort is stable; `List.insertionSort` with the
non-strict key comparison is the behaviourally identical stable sort. -/
def ttfSorted (tables : List TableHdr) : List TableHdr :=
  tables.insertionSort fun a b => a.offset ≤ b.offset

/-- Table-emission phase of `TrueTypeFontFile.createFields`: the directory
records, read in file order, are sorted by declared offset and then emitted in
that order (ttf.py lines 242-249). -/
def ttfCreateFieldsTables (cursor : Nat) (tables : List TableHdr) : Option (List TtfEvt) :=
  emitTables cursor (ttfSorted tables)

/-- Directory records whose `Table` fields appear in an emitted event list,
in emission order. -/
def tableEvents : List TtfEvt → List TableHdr
  | [] => []
  | TtfEvt.table t _ :: r => t :: tableEvents r
  | TtfEvt.padding _ :: r => tableEvents r

/-! ## Font-header sub-parser (`parseFontHeader`, ttf.py lines 88-140) -/

/-- Name and bit width of one field emitted by `parseFontHeader`.  The decoded
values of the fields do not influence which fields are emitted, except for
`magic` and `unit_per_em`, whose values guard the two `ParserError` raises. -/
structure EmittedField where
  name : String
  bits : Nat
deriving DecidableEq, Repr

/-- The decoded values `parseFontHeader` branches on: the 4-byte `magic`
string (ttf.py line 94) and the `unit_per_em` value (line 115). -/
structure FontHeaderData where
  magic : List Nat
  unit_per_em : Nat
deriving DecidableEq, Repr

/-- The magic constant `"\x5F\x0F\x3C\xF5"` (ttf.py line 95), as bytes. -/
def fontHeaderMagic : List Nat := [0x5F, 0x0F, 0x3C, 0xF5]

/-- Fields emitted by `parseFontHeader` up to and including `magic`
(ttf.py lines 89-94). -/
def fontHeaderFieldsThroughMagic : List EmittedField :=
  [⟨"maj_ver", 16⟩, ⟨"min_ver", 16⟩, ⟨"font_maj_ver", 16⟩, ⟨"font_min_ver", 16⟩,
   ⟨"checksum", 32⟩, ⟨"magic", 32⟩]

/-- The 16-bit packed flag word (ttf.py lines 99-113). -/
def fontHeaderFlagFields : List EmittedField :=
  [⟨"y0", 1⟩, ⟨"x0", 1⟩, ⟨"instr_point", 1⟩, ⟨"ppem", 1⟩, ⟨"instr_width", 1⟩,
   ⟨"vertical", 1⟩, ⟨"reserved[]", 1⟩, ⟨"linguistic", 1⟩, ⟨"gx", 1⟩,
   ⟨"strong", 1⟩, ⟨"indic", 1⟩, ⟨"lossless", 1⟩, ⟨"converted", 1⟩,
   ⟨"cleartype", 1⟩, ⟨"adobe", 2⟩]

/-- Fields emitted by `parseFontHeader` up to and including `unit_per_em`
(ttf.py lines 89-115). -/
def fontHeaderFieldsThroughUnit : List EmittedField :=
  fontHeaderFieldsThroughMagic ++ fontHeaderFlagFields ++ [⟨"unit_per_em", 16⟩]

/-- Fields emitted by `parseFontHeader` after the `unit_per_em` check
(ttf.py lines 118-140). -/
def fontHeaderTailFields : List EmittedField :=
  [⟨"created_high", 32⟩, ⟨"created", 32⟩, ⟨"modified_high", 32⟩,
   ⟨"modified", 32⟩, ⟨"xmin", 16⟩, ⟨"ymin", 16⟩, ⟨"xmax", 16⟩, ⟨"ymax", 16⟩,
   ⟨"bold", 1⟩, ⟨"italic", 1⟩, ⟨"underline", 1⟩, ⟨"outline", 1⟩, ⟨"shadow", 1⟩,
   ⟨"condensed", 1⟩, ⟨"extensed", 1⟩, ⟨"reserved[]", 9⟩,
   ⟨"lowest", 16⟩, ⟨"font_dir", 16⟩, ⟨"ofst_format", 16⟩, ⟨"glyph_format", 16⟩]

/-- `parseFontHeader` (ttf.py lines 88-140): the fields emitted before the
generator either finishes or raises, paired with the raised `ParserError`
message if any.  The magic check (lines 95-96) happens right after the `magic`
field; the unit-per-em check (lines 116-117) right after `unit_per_em`. -/
def parseFontHeader (d : FontHeaderData) : List EmittedField × Option String :=
  if d.magic ≠ fontHeaderMagic then
    (fontHeaderFieldsThroughMagic, some "TTF: invalid magic of font header")
  else if ¬(16 ≤ d.unit_per_em ∧ d.unit_per_em ≤ 16384) then
    (fontHeaderFieldsThroughUnit, some "TTF: Invalid unit/em value")
  else
    (fontHeaderFieldsThroughUnit ++ fontHeaderTailFields, none)

/-! ## Name-table sub-parser (`parseNames`, ttf.py lines 142-184) -/

/-- Decoded values of the six fields of one `NameHeader` index record
(ttf.py lines 68-75). -/
structure NameEntry where
  platformID : Nat
  encodingID : Nat
  languageID : Nat
  nameID : Nat
  length : Nat
  offset : Nat
deriving DecidableEq, Repr

/-- `NameHeader.getCharset` (ttf.py lines 77-81). -/
def NameEntry.getCharset (e : NameEntry) : String :=
  if e.platformID = 3 ∧ e.encodingID = 1 then "UTF-16-BE" else "ASCII"

/-- Event emitted while walking the sorted name index (ttf.py lines 160-184).
`idx` is the record's position in the sorted walk.  `value` is the `String`
field of `entry.length` bytes; the two anomaly constructors model the
`self.error(...)` calls (logged, non-fatal) for a duplicate (offset, length)
pair and for a backward-resolving offset respectively. -/
inductive NameEvt where
  | padding (idx pad : Nat)
  | value (idx : Nat) (entry : NameEntry)
  | dupAnomaly (idx : Nat)
  | negAnomaly (idx : Nat)
deriving DecidableEq, Repr

/-- The record-walking loop of `parseNames` (ttf.py lines 160-184) over the
already-sorted index records.  `base` is the string-block base offset (the
header's `offset` field), `last` the duplicate-detection state, `cursor` the
current byte size of the field set.  Note `last` is updated (line 168) before
the backward-offset check (lines 171-174), so even a record skipped for a
backward offset updates the duplicate state. -/
def namesLoop (base : Nat) : List (Nat × NameEntry) → Option (Nat × Nat) → Nat → List NameEvt
  | [], _, _ => []
  | (i, e) :: rest, last, cursor =>
    if last = some (e.offset, e.length) then
      NameEvt.dupAnomaly i :: namesLoop base rest last cursor
    else if e.offset + base < cursor then
      NameEvt.negAnomaly i :: namesLoop base rest (some (e.offset, e.length)) cursor
    else
      (if cursor < e.offset + base then [NameEvt.padding i (e.offset + base - cursor)] else []) ++
      (if e.length ≠ 0 then [NameEvt.value i e] else []) ++
      namesLoop base rest (some (e.offset, e.length)) (e.offset + base + e.length)

/-- The sort `entries.sort(key=lambda field: field["offset"].value)` at
ttf.py line 158, keeping each record's read-order index so records can be
identified across the stable sort (Python sorts the record objects
themselves; the index plays the role of object identity). -/
def namesSorted (entries : List NameEntry) : List (Nat × NameEntry) :=
  entries.enum.insertionSort fun a b => a.2.offset ≤ b.2.offset

/-- `parseNames` (ttf.py lines 142-184) given the decoded header values and
index records: fatal if `format` is nonzero; otherwise the index records are
stable-sorted by offset and walked.  After the 6 header bytes (three UInt16)
and the 12-byte index records the cursor is `6 + 12 * count` bytes. -/
def parseNames (format offset : Nat) (entries : List NameEntry) : Except String (List NameEvt) :=
  if format ≠ 0 then
    Except.error ("TTF (names): Invalid format (" ++ toString format ++ ")")
  else
    Except.ok (namesLoop offset (namesSorted entries) none (6 + 12 * entries.length))

/-! ## Fragment reassembly (`hachoir/field/fragment.py`) -/

/-- A `CustomFragment`: its declared bit size and the bytes of its single
`rawdata` child (`createFields` yields `RawBytes(self, "rawdata",
self.field_size // 8)`, fragment.py lines 38-39). -/
structure CustomFragment where
  field_size : Nat
  rawdata : List Nat
deriving DecidableEq, Repr

/-- A `FragmentGroup` (fragment.py lines 5-10): the ordered registration list,
the sub-parser to apply to the reassembled stream (opaque here, identified by
name) and its arguments. -/
structure FragmentGroup where
  items : List CustomFragment
  parser : String
  args : List (String × String)
deriving DecidableEq, Repr

/-- `FragmentGroup.add` (fragment.py lines 12-13): append to the registration
list. -/
def FragmentGroup.add (g : FragmentGroup) (item : CustomFragment) : FragmentGroup :=
  { g with items := g.items ++ [item] }

/-- The `StringInputStream` built by `FragmentGroup.createInputStream`: the
byte buffer, the source name, and the tags describing the sub-parser to apply
(the `{"class": parser, "args": args}` dictionary). -/
structure FragStream where
  data : List Nat
  source : String
  tagClass : String
  tagArgs : List (String × String)
deriving DecidableEq, Repr

/-- `FragmentGroup.createInputStream` (fragment.py lines 15-25): read every
fragment's `rawdata` bytes in registration order, concatenate, and wrap as a
fresh stream tagged with the sub-parser.  It is a plain function of the
group's current state: nothing is cached. -/
def FragmentGroup.createInputStream (g : FragmentGroup) : FragStream :=
  { data := (g.items.map fun item => item.rawdata).flatten
    source := "<fragment group>"
    tagClass := g.parser
    tagArgs := g.args }

/-- Group handling in `CustomFragment.__init__` (fragment.py lines 30-36):
if no group is supplied a fresh one is created for `parser`; either way the
new fragment registers itself into the group.  Returns the group the fragment
ended up in. -/
def customFragmentRegister (parser : String) (frag : CustomFragment)
    (group : Option FragmentGroup) : FragmentGroup :=
  (group.getD { items := [], parser := parser, args := [] }).add frag

end Hachoir

namespace Hachoir

/-! ## Claim C2: fragment-group stream reassembly -/

/-- C2: for every `FragmentGroup`, `createInputStream()` returns a stream
whose bytes are exactly the concatenation of each registered fragment's raw
bytes in registration order.  The stream is computed afresh from the group's
current state on every call (nothing is cached), so registering one more
fragment extends the next stream by exactly that fragment's bytes; three
fragments "AB", "CD", "EF" sharing one group yield exactly the bytes
"ABCDEF". -/
theorem fragment_group_stream_concat :
    (∀ g : FragmentGroup,
      g.createInputStream.data = (g.items.map fun item => item.rawdata).flatten) ∧
    (∀ (g : FragmentGroup) (f : CustomFragment),
      (g.add f).createInputStream.data = g.createInputStream.data ++ f.rawdata) ∧
    ((customFragmentRegister "sub" ⟨16, [69, 70]⟩
        (some (customFragmentRegister "sub" ⟨16, [67, 68]⟩
          (some (customFragmentRegister "sub" ⟨16, [65, 66]⟩ none))))).createInputStream.data
      = [65, 66, 67, 68, 69, 70]) := by
  refine ⟨fun g => rfl, fun g f => ?_, by decide⟩
  simp [FragmentGroup.add, FragmentGroup.createInputStream]

/-! ## Claim C3: root validate acceptance condition -/

/-- C3: `validate()` succeeds exactly when the decoded major version is 1, the
minor version is 0 and the table count lies in [MIN_NB_TABLE, MAX_NB_TABLE] =
[3, 30]; on failure it returns the diagnostic string of the first violated
check.  Concretely, a table count of 2 fails, 31 fails, and 5 (with an
otherwise-valid header) passes. -/
theorem validate_ok_iff :
    (∀ (s : List Nat) (maj minv nb : Nat),
      readUInt16BE s 0 = some maj → readUInt16BE s 2 = some minv →
      readUInt16BE s 4 = some nb →
      (TrueTypeFontFile.validate s = ValidateResult.ok ↔
        (maj = 1 ∧ minv = 0 ∧ MIN_NB_TABLE ≤ nb ∧ nb ≤ MAX_NB_TABLE)) ∧
      (maj ≠ 1 → TrueTypeFontFile.validate s =
        ValidateResult.invalid ("Invalid major version (" ++ toString maj ++ ")")) ∧
      (maj = 1 → minv ≠ 0 → TrueTypeFontFile.validate s =
        ValidateResult.invalid ("Invalid minor version (" ++ toString minv ++ ")")) ∧
      (maj = 1 → minv = 0 → ¬(MIN_NB_TABLE ≤ nb ∧ nb ≤ MAX_NB_TABLE) →
        TrueTypeFontFile.validate s =
          ValidateResult.invalid ("Invalid number of table (" ++ toString nb ++ ")"))) ∧
    TrueTypeFontFile.validate [0, 1, 0, 0, 0, 2, 0, 0, 0, 0] =
      ValidateResult.invalid "Invalid number of table (2)" ∧
    TrueTypeFontFile.validate [0, 1, 0, 0, 0, 31, 0, 0, 0, 0] =
      ValidateResult.invalid "Invalid number of table (31)" ∧
    TrueTypeFontFile.validate [0, 1, 0, 0, 0, 5, 0, 0, 0, 0] = ValidateResult.ok := by
  refine ⟨fun s maj minv nb h0 h2 h4 => ?_, by decide, by decide, by decide⟩
  rw [TrueTypeFontFile.validate, h0, h2, h4]
  refine ⟨?_, fun hmaj => by simp [hmaj], fun hmaj hmin => by simp [hmaj, hmin],
    fun hmaj hmin hnb => by simp [hmaj, hmin, hnb]⟩
  constructor
  · intro h
    by_cases hmaj : maj = 1
    · by_cases hmin : minv = 0
      · by_cases hnb : MIN_NB_TABLE ≤ nb ∧ nb ≤ MAX_NB_TABLE
        · exact ⟨hmaj, hmin, hnb⟩
        · simp [hmaj, hmin, hnb] at h
      · simp [hmaj, hmin] at h
    · simp [hmaj] at h
  · rintro ⟨hmaj, hmin, hnb⟩
    simp [hmaj, hmin, hnb.1, hnb.2]

/-- Witness for C3: the hypotheses of `validate_ok_iff` are satisfiable — on
the concrete valid header with table count 5 the success condition holds. -/
theorem validate_ok_iff_witness :
    TrueTypeFontFile.validate [0, 1, 0, 0, 0, 5, 0, 0, 0, 0] = ValidateResult.ok :=
  ((validate_ok_iff.1 [0, 1, 0, 0, 0, 5, 0, 0, 0, 0] 1 0 5
    (by decide) (by decide) (by decide)).1).mpr (by decide)

end Hachoir

namespace Hachoir

/-! ## Claims C4, C5: font-header fatal checks -/

/-- C4: while parsing the font-header table, a fatal parse error is raised
immediately after the 4-byte `magic` field — i.e. the emitted fields are
exactly the six through `magic` and the error is the magic diagnostic — if
and only if the magic value differs from the constant bytes 5F 0F 3C F5; the
error aborts that table's parse (no later field is emitted). -/
theorem font_header_magic_check (d : FontHeaderData) :
    parseFontHeader d =
      (fontHeaderFieldsThroughMagic, some "TTF: invalid magic of font header") ↔
    d.magic ≠ fontHeaderMagic := by
  unfold parseFontHeader
  rcases eq_or_ne d.magic fontHeaderMagic with hm | hm
  · simp only [hm, ne_eq, not_true_eq_false, ite_false, iff_false]
    split
    · intro h
      exact absurd (congrArg Prod.snd h) (by decide)
    · intro h
      exact absurd (congrArg Prod.snd h) (by decide)
  · simp [hm]

/-- Witness for C4 (instantiating both directions): a wrong magic raises the
fatal error right after the `magic` field, and the correct magic does not. -/
theorem font_header_magic_check_witness :
    (parseFontHeader ⟨[1, 2, 3, 4], 1000⟩ =
      (fontHeaderFieldsThroughMagic, some "TTF: invalid magic of font header")) ∧
    ¬(parseFontHeader ⟨[0x5F, 0x0F, 0x3C, 0xF5], 1000⟩ =
      (fontHeaderFieldsThroughMagic, some "TTF: invalid magic of font header")) :=
  ⟨(font_header_magic_check ⟨[1, 2, 3, 4], 1000⟩).mpr (by decide),
   fun h => absurd (by decide)
     ((font_header_magic_check ⟨[0x5F, 0x0F, 0x3C, 0xF5], 1000⟩).mp h)⟩

/-- C5: while parsing the font-header table (with the magic check passed), a
fatal parse error is raised immediately after the `unit_per_em` field — the
emitted fields are exactly those through `unit_per_em` and the error is the
unit/em diagnostic — if and only if the value lies outside [16, 16384];
concretely 15 fails, 16 passes, 16384 passes, 16385 fails. -/
theorem font_header_unit_per_em_check :
    (∀ d : FontHeaderData, d.magic = fontHeaderMagic →
      (parseFontHeader d =
        (fontHeaderFieldsThroughUnit, some "TTF: Invalid unit/em value") ↔
       ¬(16 ≤ d.unit_per_em ∧ d.unit_per_em ≤ 16384))) ∧
    (parseFontHeader ⟨fontHeaderMagic, 15⟩).2 = some "TTF: Invalid unit/em value" ∧
    (parseFontHeader ⟨fontHeaderMagic, 16⟩).2 = none ∧
    (parseFontHeader ⟨fontHeaderMagic, 16384⟩).2 = none ∧
    (parseFontHeader ⟨fontHeaderMagic, 16385⟩).2 = some "TTF: Invalid unit/em value" := by
  refine ⟨fun d hm => ?_, by decide, by decide, by decide, by decide⟩
  unfold parseFontHeader
  simp only [hm, ne_eq, not_true_eq_false, ite_false]
  split
  · next hu => simp [hu]
  · next hu =>
    simp only [hu, iff_false]
    intro h
    exact absurd (congrArg Prod.snd h) (by decide)

/-- Witness for C5: at the concrete value 15 the fatal error is raised right
after `unit_per_em`, discharging the magic hypothesis concretely. -/
theorem font_header_unit_per_em_check_witness :
    parseFontHeader ⟨fontHeaderMagic, 15⟩ =
      (fontHeaderFieldsThroughUnit, some "TTF: Invalid unit/em value") :=
  (font_header_unit_per_em_check.1 ⟨fontHeaderMagic, 15⟩ rfl).mpr (by decide)

end Hachoir

namespace Hachoir

/-! ## Claims C7, C10: name-table skip behaviour -/

/-- C7: in the name-table walk, a record whose absolute string offset
(record offset plus string-block base) resolves before the current cursor is
skipped with exactly one logged anomaly, emits no field (no padding, no
string), raises nothing fatal, and production continues with the remaining
records at an unchanged cursor. -/
theorem names_backward_offset_skipped (base cursor : Nat) (last : Option (Nat × Nat))
    (i : Nat) (e : NameEntry) (rest : List (Nat × NameEntry))
    (hdup : last ≠ some (e.offset, e.length))
    (hneg : e.offset + base < cursor) :
    namesLoop base ((i, e) :: rest) last cursor =
      NameEvt.negAnomaly i :: namesLoop base rest (some (e.offset, e.length)) cursor := by
  rw [namesLoop, if_neg hdup, if_pos hneg]

/-- Witness for C7: concrete backward-offset record (absolute offset 1 with
cursor at 5) is skipped with a single anomaly and nothing else. -/
theorem names_backward_offset_skipped_witness :
    namesLoop 0 [(0, ⟨0, 0, 0, 0, 3, 1⟩)] none 5 = [NameEvt.negAnomaly 0] := by
  have h := names_backward_offset_skipped 0 5 none 0 ⟨0, 0, 0, 0, 3, 1⟩ []
    (by decide) (by decide)
  exact h

/-- C10: the duplicate-detection state is updated even for a record that is
itself skipped for a backward-resolving offset: an immediately following
record with the same (offset, length) pair is dropped as a duplicate with an
anomaly, so neither record emits a string field (the walk emits exactly the
two anomalies and continues). -/
theorem names_dup_state_updated_on_backward_skip (base cursor : Nat)
    (last : Option (Nat × Nat)) (i j : Nat) (e e₂ : NameEntry)
    (rest : List (Nat × NameEntry))
    (hdup : last ≠ some (e.offset, e.length))
    (hneg : e.offset + base < cursor)
    (ho : e₂.offset = e.offset) (hl : e₂.length = e.length) :
    namesLoop base ((i, e) :: (j, e₂) :: rest) last cursor =
      NameEvt.negAnomaly i :: NameEvt.dupAnomaly j ::
        namesLoop base rest (some (e.offset, e.length)) cursor := by
  rw [namesLoop, if_neg hdup, if_pos hneg, namesLoop, if_pos (by rw [ho, hl])]

/-- Witness for C10: a concrete backward-skipped record (pair (1, 3)) followed
by a record with the identical pair yields exactly the backward anomaly then
the duplicate anomaly, and no string field. -/
theorem names_dup_state_updated_on_backward_skip_witness :
    namesLoop 0 [(0, ⟨0, 0, 0, 0, 3, 1⟩), (1, ⟨7, 7, 7, 7, 3, 1⟩)] none 5 =
      [NameEvt.negAnomaly 0, NameEvt.dupAnomaly 1] := by
  have h := names_dup_state_updated_on_backward_skip 0 5 none 0 1
    ⟨0, 0, 0, 0, 3, 1⟩ ⟨7, 7, 7, 7, 3, 1⟩ [] (by decide) (by decide) rfl rfl
  exact h

/-! ## Claim C9: validate never raises (corrected) -/

/-- Counterexample to C9 as stated: on the empty input stream the lookup of
`maj_ver` cannot decode its field, so `validate()` propagates the fatal
error instead of returning success or a diagnostic string. -/
theorem validate_raises_on_empty_stream :
    (TrueTypeFontFile.validate []).returnsNormally = false := by decide

/-- C9 (amended): `validate()` returns — success or a diagnostic string,
raising nothing — on every input stream that contains the six header bytes it
inspects; streams handed to the parser satisfy this via the declared minimum
size of 10 bytes. -/
theorem validate_returns_on_adequate_stream (s : List Nat) (h : 6 ≤ s.length) :
    (TrueTypeFontFile.validate s).returnsNormally = true := by
  have h0 : s[0]? = some s[0] := List.getElem?_eq_getElem (by omega)
  have h1 : s[1]? = some s[1] := List.getElem?_eq_getElem (by omega)
  have h2 : s[2]? = some s[2] := List.getElem?_eq_getElem (by omega)
  have h3 : s[3]? = some s[3] := List.getElem?_eq_getElem (by omega)
  have h4 : s[4]? = some s[4] := List.getElem?_eq_getElem (by omega)
  have h5 : s[5]? = some s[5] := List.getElem?_eq_getElem (by omega)
  rw [TrueTypeFontFile.validate]
  rw [readUInt16BE, h0, h1, readUInt16BE, h2, h3, readUInt16BE, h4, h5]
  simp only []
  split <;> [skip; split <;> [skip; split]] <;> rfl

/-- Witness for C9 (amended): a concrete 10-byte stream satisfies the length
hypothesis and `validate` returns normally on it. -/
theorem validate_returns_on_adequate_stream_witness :
    6 ≤ ([0, 1, 0, 0, 0, 5, 0, 0, 0, 0] : List Nat).length ∧
    (TrueTypeFontFile.validate [0, 1, 0, 0, 0, 5, 0, 0, 0, 0]).returnsNormally = true :=
  ⟨by decide, validate_returns_on_adequate_stream [0, 1, 0, 0, 0, 5, 0, 0, 0, 0] (by decide)⟩

end Hachoir

namespace Hachoir

/-! ## Claim C8: zero-size directory records -/

/-- C8: a directory record of declared size 0 contributes no `Table` field and
no padding beyond the seek to its declared offset (the emission for it is the
seek gap alone), while a record of nonzero size contributes exactly one
`Table` field bound to `size * 8` bits after the same seek. -/
theorem ttf_zero_size_emits_no_table (cursor : Nat) (t : TableHdr)
    (rest : List TableHdr) (h : cursor ≤ t.offset) :
    (t.size = 0 →
      emitTables cursor (t :: rest) =
        (emitTables t.offset rest).map fun evs =>
          (if cursor < t.offset then [TtfEvt.padding (t.offset - cursor)] else []) ++ evs) ∧
    (t.size ≠ 0 →
      emitTables cursor (t :: rest) =
        (emitTables (t.offset + t.size) rest).map fun evs =>
          (if cursor < t.offset then [TtfEvt.padding (t.offset - cursor)] else []) ++
            TtfEvt.table t (t.size * 8) :: evs) := by
  constructor
  · intro h0
    rw [emitTables, if_neg (by omega)]
    simp [h0]
  · intro h0
    rw [emitTables, if_neg (by omega)]
    simp [h0]

/-- Witness for C8: a concrete size-0 record at offset 10 with cursor 4 yields
only the 6-byte seek padding; the same record with size 2 yields the padding
and one table field of 16 bits. -/
theorem ttf_zero_size_emits_no_table_witness :
    emitTables 4 [⟨"cmap", 0, 10, 0⟩] = some [TtfEvt.padding 6] ∧
    emitTables 4 [⟨"glyf", 0, 10, 2⟩] =
      some [TtfEvt.padding 6, TtfEvt.table ⟨"glyf", 0, 10, 2⟩ 16] := by
  constructor
  · have h := (ttf_zero_size_emits_no_table 4 ⟨"cmap", 0, 10, 0⟩ [] (by decide)).1 rfl
    simpa using h
  · have h := (ttf_zero_size_emits_no_table 4 ⟨"glyf", 0, 10, 2⟩ [] (by decide)).2 (by decide)
    simpa using h

/-! ## Claim C1: processing order of the table directory -/

/-- Appending event lists appends their table-record projections. -/
theorem tableEvents_append (a b : List TtfEvt) :
    tableEvents (a ++ b) = tableEvents a ++ tableEvents b := by
  induction a with
  | nil => rfl
  | cons ev r ih => cases ev <;> simp [tableEvents, ih]

/-- The emission loop produces the `Table` fields in exactly the order of its
input record list, omitting the size-0 records. -/
theorem emitTables_tableEvents (l : List TableHdr) :
    ∀ (cursor : Nat) (evs : List TtfEvt), emitTables cursor l = some evs →
      tableEvents evs = l.filter fun t => decide (t.size ≠ 0) := by
  induction l with
  | nil =>
    intro cursor evs h
    rw [emitTables, Option.some_inj] at h
    rw [← h]
    rfl
  | cons t rest ih =>
    intro cursor evs h
    rw [emitTables] at h
    split at h
    · exact absurd h (by simp)
    · rcases Option.map_eq_some'.mp h with ⟨evs', hrec, rfl⟩
      have hpad : tableEvents
          (if cursor < t.offset then [TtfEvt.padding (t.offset - cursor)] else []) = [] := by
        split <;> rfl
      rw [tableEvents_append, tableEvents_append, hpad, ih _ _ hrec, List.filter_cons]
      by_cases h0 : t.size ≠ 0
      · simp [h0, tableEvents]
      · simp [h0, tableEvents]

/-- Stability of the offset sort: the records carrying any given offset appear
in `ttfSorted tables` in exactly their directory order. -/
theorem ttfSorted_filter_offset (tables : List TableHdr) (v : Nat) :
    (ttfSorted tables).filter (fun t => decide (t.offset = v)) =
      tables.filter (fun t => decide (t.offset = v)) := by
  have hsub : (tables.filter (fun t => decide (t.offset = v))).Sublist tables :=
    List.filter_sublist tables
  have hpair : (tables.filter (fun t => decide (t.offset = v))).Pairwise
      (fun a b => a.offset ≤ b.offset) := by
    apply List.pairwise_of_forall_mem_list
    intro a ha b hb
    have hav : a.offset = v := by simpa using (List.mem_filter.mp ha).2
    have hbv : b.offset = v := by simpa using (List.mem_filter.mp hb).2
    omega
  have hstable : (tables.filter (fun t => decide (t.offset = v))).Sublist
      (ttfSorted tables) := List.sublist_insertionSort hpair hsub
  have hself : (tables.filter (fun t => decide (t.offset = v))).filter
      (fun t => decide (t.offset = v)) = tables.filter (fun t => decide (t.offset = v)) :=
    List.filter_eq_self.mpr fun a ha => (List.mem_filter.mp ha).2
  have h2 : (tables.filter (fun t => decide (t.offset = v))).Sublist
      ((ttfSorted tables).filter (fun t => decide (t.offset = v))) := by
    have h3 := List.Sublist.filter (fun t => decide (t.offset = v)) hstable
    rwa [hself] at h3
  have hperm : ((ttfSorted tables).filter (fun t => decide (t.offset = v))).Perm
      (tables.filter (fun t => decide (t.offset = v))) :=
    (List.perm_insertionSort _ tables).filter _
  exact (h2.eq_of_length hperm.length_eq.symm).symm

/-- C1: the root parser processes the directory records in ascending
declared-offset order, by a stable sort: `ttfSorted` is a permutation of the
directory, sorted by declared offset, preserving the directory order of
equal-offset records, and the `Table` fields are emitted in exactly that
order; for declared offsets [200, 50, 120] the processing order is
50, 120, 200. -/
theorem ttf_tables_processed_in_offset_order :
    (∀ tables : List TableHdr,
      (ttfSorted tables).Pairwise (fun a b => a.offset ≤ b.offset) ∧
      (ttfSorted tables).Perm tables ∧
      ∀ v : Nat, (ttfSorted tables).filter (fun t => decide (t.offset = v)) =
        tables.filter (fun t => decide (t.offset = v))) ∧
    (∀ (cursor : Nat) (tables : List TableHdr) (evs : List TtfEvt),
      ttfCreateFieldsTables cursor tables = some evs →
      tableEvents evs = (ttfSorted tables).filter fun t => decide (t.size ≠ 0)) ∧
    ((ttfSorted [⟨"a", 0, 200, 1⟩, ⟨"b", 0, 50, 2⟩, ⟨"c", 0, 120, 3⟩]).map
      (fun t => t.offset) = [50, 120, 200]) ∧
    (ttfCreateFieldsTables 0 [⟨"a", 0, 200, 1⟩, ⟨"b", 0, 50, 2⟩, ⟨"c", 0, 120, 3⟩] =
      some [TtfEvt.padding 50, TtfEvt.table ⟨"b", 0, 50, 2⟩ 16,
        TtfEvt.padding 68, TtfEvt.table ⟨"c", 0, 120, 3⟩ 24,
        TtfEvt.padding 77, TtfEvt.table ⟨"a", 0, 200, 1⟩ 8]) := by
  refine ⟨fun tables => ⟨?_, List.perm_insertionSort _ tables,
      ttfSorted_filter_offset tables⟩,
    fun cursor tables evs h => emitTables_tableEvents _ _ _ h, by decide, by decide⟩
  haveI : IsTotal TableHdr (fun a b => a.offset ≤ b.offset) :=
    ⟨fun a b => Nat.le_total _ _⟩
  haveI : IsTrans TableHdr (fun a b => a.offset ≤ b.offset) :=
    ⟨fun _ _ _ hab hbc => le_trans hab hbc⟩
  exact List.sorted_insertionSort _ tables

/-- Witness for C1: the emission-order conjunct instantiated on the concrete
[200, 50, 120] directory, discharging the success hypothesis concretely. -/
theorem ttf_tables_processed_in_offset_order_witness :
    tableEvents [TtfEvt.padding 50, TtfEvt.table ⟨"b", 0, 50, 2⟩ 16,
        TtfEvt.padding 68, TtfEvt.table ⟨"c", 0, 120, 3⟩ 24,
        TtfEvt.padding 77, TtfEvt.table ⟨"a", 0, 200, 1⟩ 8] =
      (ttfSorted [⟨"a", 0, 200, 1⟩, ⟨"b", 0, 50, 2⟩, ⟨"c", 0, 120, 3⟩]).filter
        (fun t => decide (t.size ≠ 0)) :=
  ttf_tables_processed_in_offset_order.2.1 0
    [⟨"a", 0, 200, 1⟩, ⟨"b", 0, 50, 2⟩, ⟨"c", 0, 120, 3⟩] _ (by decide)

end Hachoir


namespace Hachoir

/-! ## Claim C6: duplicate (offset, length) pairs in the name table -/

/-- Every string field emitted by the name-table walk starts at or after the
cursor the walk was entered with: skipped records leave the cursor unchanged
and emitted records only move it forward. -/
theorem namesLoop_value_cursor_le (base : Nat) :
    ∀ (l : List (Nat × NameEntry)) (last : Option (Nat × Nat)) (cursor i : Nat)
      (e : NameEntry), NameEvt.value i e ∈ namesLoop base l last cursor →
      cursor ≤ e.offset + base
  | [], _, _, _, _, h => by simp [namesLoop] at h
  | (k, a) :: rest, last, cursor, i, e, h => by
    rw [namesLoop] at h
    by_cases hdup : last = some (a.offset, a.length)
    · rw [if_pos hdup] at h
      rcases List.mem_cons.mp h with h1 | h2
      · exact absurd h1 (by simp)
      · exact namesLoop_value_cursor_le base rest _ _ _ _ h2
    · rw [if_neg hdup] at h
      by_cases hneg : a.offset + base < cursor
      · rw [if_pos hneg] at h
        rcases List.mem_cons.mp h with h1 | h2
        · exact absurd h1 (by simp)
        · exact namesLoop_value_cursor_le base rest _ _ _ _ h2
      · rw [if_neg hneg, List.mem_append, List.mem_append] at h
        rcases h with (hp | hv) | ht
        · split at hp
          · exact absurd (List.mem_singleton.mp hp) (by simp)
          · exact absurd hp (by simp)
        · split at hv
          · cases List.mem_singleton.mp hv
            omega
          · exact absurd hv (by simp)
        · have hrec := namesLoop_value_cursor_le base rest _ _ _ _ ht
          omega

/-- Two string fields emitted by the name-table walk never share a string
offset: whoever is emitted first moves the cursor strictly past the shared
start (its length is nonzero), after which any record with that offset is
skipped (as a duplicate or for resolving backward). -/
theorem namesLoop_value_offset_unique (base : Nat) :
    ∀ (l : List (Nat × NameEntry)) (last : Option (Nat × Nat)) (cursor i j : Nat)
      (e e₂ : NameEntry),
      NameEvt.value i e ∈ namesLoop base l last cursor →
      NameEvt.value j e₂ ∈ namesLoop base l last cursor →
      e.offset = e₂.offset → i = j ∧ e = e₂
  | [], _, _, _, _, _, _, hi, _, _ => by simp [namesLoop] at hi
  | (k, a) :: rest, last, cursor, i, j, e, e₂, hi, hj, hoff => by
    rw [namesLoop] at hi hj
    by_cases hdup : last = some (a.offset, a.length)
    · rw [if_pos hdup] at hi hj
      rcases List.mem_cons.mp hi with h1 | h2
      · exact absurd h1 (by simp)
      · rcases List.mem_cons.mp hj with h3 | h4
        · exact absurd h3 (by simp)
        · exact namesLoop_value_offset_unique base rest _ _ _ _ _ _ h2 h4 hoff
    · rw [if_neg hdup] at hi hj
      by_cases hneg : a.offset + base < cursor
      · rw [if_pos hneg] at hi hj
        rcases List.mem_cons.mp hi with h1 | h2
        · exact absurd h1 (by simp)
        · rcases List.mem_cons.mp hj with h3 | h4
          · exact absurd h3 (by simp)
          · exact namesLoop_value_offset_unique base rest _ _ _ _ _ _ h2 h4 hoff
      · rw [if_neg hneg, List.mem_append, List.mem_append] at hi hj
        have hpad : ∀ (m : Nat) (b : NameEntry), NameEvt.value m b ∈
            (if cursor < a.offset + base then
              [NameEvt.padding k (a.offset + base - cursor)] else []) → False := by
          intro m b hmem
          split at hmem
          · exact absurd (List.mem_singleton.mp hmem) (by simp)
          · exact absurd hmem (by simp)
        have hval : ∀ (m : Nat) (b : NameEntry), NameEvt.value m b ∈
            (if a.length ≠ 0 then [NameEvt.value k a] else []) →
            m = k ∧ b = a ∧ a.length ≠ 0 := by
          intro m b hmem
          split at hmem
          · next hl =>
            cases List.mem_singleton.mp hmem
            exact ⟨rfl, rfl, hl⟩
          · exact absurd hmem (by simp)
        rcases hi with (hip | hiv) | hit
        · exact absurd hip fun h => hpad _ _ h
        · rcases hval _ _ hiv with ⟨rfl, rfl, hl⟩
          rcases hj with (hjp | hjv) | hjt
          · exact absurd hjp fun h => hpad _ _ h
          · rcases hval _ _ hjv with ⟨rfl, rfl, -⟩
            exact ⟨rfl, rfl⟩
          · have hrec := namesLoop_value_cursor_le base rest _ _ _ _ hjt
            omega
        · rcases hj with (hjp | hjv) | hjt
          · exact absurd hjp fun h => hpad _ _ h
          · rcases hval _ _ hjv with ⟨rfl, rfl, hl⟩
            have hrec := namesLoop_value_cursor_le base rest _ _ _ _ hit
            omega
          · exact namesLoop_value_offset_unique base rest _ _ _ _ _ _ hit hjt hoff

end Hachoir

namespace Hachoir

/-- Counterexample to C6 as stated: in this name table the two index records
with the identical pair (offset 5, length 3) — nonzero length — emit zero
string fields, not exactly one.  The sorted walk first emits the length-10
string of the offset-0 record, moving the cursor past absolute offset 47, so
the first record of the pair is skipped for a backward-resolving offset (one
anomaly) and the second is then dropped as its duplicate (second anomaly):
no string field for the pair is ever produced. -/
theorem names_duplicate_pair_counterexample :
    parseNames 0 42 [⟨0, 0, 0, 0, 10, 0⟩, ⟨0, 0, 0, 0, 3, 5⟩, ⟨0, 0, 0, 0, 3, 5⟩] =
      Except.ok [NameEvt.value 0 ⟨0, 0, 0, 0, 10, 0⟩, NameEvt.negAnomaly 1,
        NameEvt.dupAnomaly 2] ∧
    ([NameEvt.value 0 ⟨0, 0, 0, 0, 10, 0⟩, NameEvt.negAnomaly 1,
        NameEvt.dupAnomaly 2].filter fun ev =>
          match ev with
          | NameEvt.value _ e => decide (e.offset = 5 ∧ e.length = 3)
          | _ => false).length = 0 :=
  ⟨rfl, rfl⟩

/-- C6 (amended): when two index records share an identical (offset, length)
pair, only the first of them (in sorted order) can produce a string field —
at most one string field is emitted for the pair, and when the first record
of the pair is processed and emits (nonzero length, offset not backward), the
immediately following duplicate is skipped with exactly one anomaly and
parsing continues; but if the first record is itself skipped (backward
offset), the pair emits zero string fields rather than exactly one. -/
theorem names_duplicate_pair_at_most_one :
    (∀ (offset : Nat) (entries : List NameEntry) (evs : List NameEvt)
      (i j : Nat) (e e₂ : NameEntry),
      parseNames 0 offset entries = Except.ok evs →
      NameEvt.value i e ∈ evs → NameEvt.value j e₂ ∈ evs →
      e.offset = e₂.offset → i = j ∧ e = e₂) ∧
    (∀ (base cursor : Nat) (last : Option (Nat × Nat)) (i j : Nat) (e : NameEntry)
      (rest : List (Nat × NameEntry)),
      last ≠ some (e.offset, e.length) → cursor ≤ e.offset + base → e.length ≠ 0 →
      namesLoop base ((i, e) :: (j, e) :: rest) last cursor =
        (if cursor < e.offset + base then
          [NameEvt.padding i (e.offset + base - cursor)] else []) ++
        NameEvt.value i e :: NameEvt.dupAnomaly j ::
          namesLoop base rest (some (e.offset, e.length))
            (e.offset + base + e.length)) := by
  constructor
  · intro offset entries evs i j e e₂ hok hi hj hoff
    rw [parseNames, if_neg (by simp)] at hok
    cases hok
    exact namesLoop_value_offset_unique offset _ _ _ _ _ _ _ hi hj hoff
  · intro base cursor last i j e rest hdup hcur hlen
    rw [namesLoop, if_neg hdup, if_neg (by omega), if_pos hlen,
      namesLoop, if_pos rfl]
    simp

/-- Witness for C6 (amended): both conjuncts instantiated concretely — the
uniqueness conjunct on a one-record table whose single string field can only
coincide with itself, and the adjacent-duplicate conjunct on a concrete pair
(offset 4, length 3) processed at cursor 2. -/
theorem names_duplicate_pair_at_most_one_witness :
    (0 = 0 ∧ (⟨0, 0, 0, 0, 5, 0⟩ : NameEntry) = ⟨0, 0, 0, 0, 5, 0⟩) ∧
    namesLoop 0 [(0, ⟨0, 0, 0, 0, 3, 4⟩), (1, ⟨0, 0, 0, 0, 3, 4⟩)] none 2 =
      [NameEvt.padding 0 2, NameEvt.value 0 ⟨0, 0, 0, 0, 3, 4⟩,
        NameEvt.dupAnomaly 1] := by
  constructor
  · have hok : parseNames 0 42 [⟨0, 0, 0, 0, 5, 0⟩] =
        Except.ok [NameEvt.padding 0 24, NameEvt.value 0 ⟨0, 0, 0, 0, 5, 0⟩] := rfl
    exact names_duplicate_pair_at_most_one.1 42 [⟨0, 0, 0, 0, 5, 0⟩]
      [NameEvt.padding 0 24, NameEvt.value 0 ⟨0, 0, 0, 0, 5, 0⟩] 0 0
      ⟨0, 0, 0, 0, 5, 0⟩ ⟨0, 0, 0, 0, 5, 0⟩ hok (by simp) (by simp) rfl
  · have h := names_duplicate_pair_at_most_one.2 0 2 none 0 1 ⟨0, 0, 0, 0, 3, 4⟩ []
      (by simp) (by decide) (by decide)
    simpa using h

end Hachoir
